import Mathlib

/-!
# Verification of the v2ray-healthcheck core against its specification

Shallow embedding, in Lean 4, of the pure core of the `v2ray-healthcheck`
repository (files `src/parser.py`, `src/config_sources.py`,
`src/tcp_checker.py`, `v2ray_checker.py`), together with theorems settling
the specification claims about it.

Python strings are modelled as Lean `String` (processed as `List Char`);
Python `bytes` as `List Nat` (each entry < 256); fallible Python code
(`try`/`except`) as `Option`/`Except`-valued functions.  Library behaviour
the source relies on (`urllib.parse`, `base64.b64decode`, `json.loads`,
`int(...)`) is modelled from the documented CPython semantics on the ASCII
fragment the claims exercise; Unicode-only niceties (NFKC netloc checks,
non-ASCII digit parsing, full Unicode lowercasing) are out of the model.
-/

namespace V2ray

/-! ## Basic character and string helpers (Python semantics) -/

/-- The ASCII whitespace characters stripped by Python `str.strip()`
(space, tab, linefeed, return, formfeed, vertical tab). -/
def isPyWhitespace (c : Char) : Bool :=
  c = ' ' || c = '\t' || c = '\n' || c = '\r' || c = '\x0c' || c = '\x0b'

/-- `str.strip()` on a char list: drop leading and trailing whitespace. -/
def pyStripList (cs : List Char) : List Char :=
  ((cs.dropWhile isPyWhitespace).reverse.dropWhile isPyWhitespace).reverse

/-- Python `str.strip()`. -/
def pyStrip (s : String) : String :=
  ⟨pyStripList s.data⟩

/-- ASCII lowercase of one character (Python `str.lower()` on the ASCII
fragment; full-Unicode case folding is out of the model). -/
def asciiLower (c : Char) : Char :=
  if 'A' ≤ c && c ≤ 'Z' then Char.ofNat (c.toNat + 32) else c

/-- ASCII `str.lower()` on a char list. -/
def pyLowerList (cs : List Char) : List Char :=
  cs.map asciiLower

/-- `s.startswith(p)` on char lists. -/
def listStartsWith : List Char → List Char → Bool
  | _, [] => true
  | [], _ :: _ => false
  | c :: cs, p :: ps => c = p && listStartsWith cs ps

/-- `s.split(sep, 1)` on char lists for a one-character separator: split at
the first occurrence, `none` when the separator does not occur. -/
def splitFirst (sep : Char) : List Char → Option (List Char × List Char)
  | [] => none
  | c :: cs =>
    if c = sep then some ([], cs)
    else match splitFirst sep cs with
      | none => none
      | some (a, b) => some (c :: a, b)

/-- Python `s.partition(sep)` for a one-character separator:
`(before, sepFound, after)`. -/
def pyPartition (sep : Char) (cs : List Char) : List Char × Bool × List Char :=
  match splitFirst sep cs with
  | none => (cs, false, [])
  | some (a, b) => (a, true, b)

/-- Python `s.rpartition(sep)` for a one-character separator. -/
def pyRPartition (sep : Char) (cs : List Char) : List Char × Bool × List Char :=
  match splitFirst sep cs.reverse with
  | none => ([], false, cs)
  | some (a, b) => (b.reverse, true, a.reverse)

/-- Split a char list on every occurrence of a one-character separator
(Python `s.split(sep)`; on the empty string yields `[[]]`). -/
def splitAll (sep : Char) (cs : List Char) : List (List Char) :=
  match cs with
  | [] => [[]]
  | c :: rest =>
    match splitAll sep rest with
    | [] => [[]]
    | g :: gs => if c = sep then [] :: g :: gs else (c :: g) :: gs

/-- ASCII decimal digit test. -/
def isDigitChar (c : Char) : Bool := '0' ≤ c && c ≤ '9'

/-- Hex digit value (by code point: `0`-`9`, `a`-`f`, `A`-`F`), `none` for
non-hex characters. -/
def hexVal (c : Char) : Option Nat :=
  let n := c.toNat
  if 48 ≤ n && n ≤ 57 then some (n - 48)
  else if 97 ≤ n && n ≤ 102 then some (n - 87)
  else if 65 ≤ n && n ≤ 70 then some (n - 55)
  else none

/-- Digits of a nonnegative integer, most significant first (helper for
rendering numbers into strings). -/
def natDigits (fuel : Nat) (n : Nat) : List Char :=
  match fuel with
  | 0 => []
  | fuel + 1 =>
    if n < 10 then [Char.ofNat ('0'.toNat + n)]
    else natDigits fuel (n / 10) ++ [Char.ofNat ('0'.toNat + n % 10)]

/-- Python `str(i)` for an integer. -/
def pyIntRepr (i : Int) : List Char :=
  if i < 0 then '-' :: natDigits i.natAbs i.natAbs
  else natDigits (i.toNat + 1) i.toNat

/-- Python `int(s, 10)`: optional surrounding whitespace, an optional sign,
then ASCII digits with single underscores allowed strictly between digits.
`none` models `ValueError`.  (Non-ASCII digits are out of the model.) -/
def pyParseInt (cs : List Char) : Option Int :=
  let cs := pyStripList cs
  let (neg, ds) :=
    match cs with
    | '-' :: rest => (true, rest)
    | '+' :: rest => (false, rest)
    | rest => (false, rest)
  -- digits with single underscores between digits
  let rec go (prevDigit : Bool) (acc : Nat) : List Char → Option Nat
    | [] => if prevDigit then some acc else none
    | c :: rest =>
      if isDigitChar c then go true (acc * 10 + (c.toNat - '0'.toNat)) rest
      else if c = '_' then
        match rest with
        | r :: rs => if prevDigit && isDigitChar r then
            go true (acc * 10 + (r.toNat - '0'.toNat)) rs
          else none
        | [] => none
      else none
  match ds with
  | [] => none
  | d :: _ =>
    if isDigitChar d then
      match go false 0 ds with
      | none => none
      | some n => some (if neg then -(n : Int) else (n : Int))
    else none

/-! ## UTF-8 (Python `bytes.decode('utf-8')`) -/

/-- Strict UTF-8 decoding of a byte list; `none` models `UnicodeDecodeError`
(raised inside the parser's `try` blocks). -/
def utf8DecodeStrict : List Nat → Option (List Char)
  | [] => some []
  | b :: rest =>
    if b < 0x80 then
      match utf8DecodeStrict rest with
      | none => none
      | some cs => some (Char.ofNat b :: cs)
    else if b < 0xC2 then none
    else if b < 0xE0 then
      match rest with
      | c1 :: rest' =>
        if 0x80 ≤ c1 && c1 < 0xC0 then
          match utf8DecodeStrict rest' with
          | none => none
          | some cs => some (Char.ofNat ((b - 0xC0) * 64 + (c1 - 0x80)) :: cs)
        else none
      | [] => none
    else if b < 0xF0 then
      match rest with
      | c1 :: c2 :: rest' =>
        let lo1 := if b = 0xE0 then 0xA0 else 0x80
        let hi1 := if b = 0xED then 0xA0 else 0xC0
        if lo1 ≤ c1 && c1 < hi1 && 0x80 ≤ c2 && c2 < 0xC0 then
          match utf8DecodeStrict rest' with
          | none => none
          | some cs =>
            some (Char.ofNat ((b - 0xE0) * 4096 + (c1 - 0x80) * 64 + (c2 - 0x80)) :: cs)
        else none
      | _ => none
    else if b < 0xF5 then
      match rest with
      | c1 :: c2 :: c3 :: rest' =>
        let lo1 := if b = 0xF0 then 0x90 else 0x80
        let hi1 := if b = 0xF4 then 0x90 else 0xC0
        if lo1 ≤ c1 && c1 < hi1 && 0x80 ≤ c2 && c2 < 0xC0 && 0x80 ≤ c3 && c3 < 0xC0 then
          match utf8DecodeStrict rest' with
          | none => none
          | some cs =>
            some (Char.ofNat ((b - 0xF0) * 262144 + (c1 - 0x80) * 4096 +
              (c2 - 0x80) * 64 + (c3 - 0x80)) :: cs)
        else none
      | _ => none
    else none

/-- Fuel-driven worker for UTF-8 decoding with `errors='replace'`: each
step consumes at least one byte; invalid sequences become U+FFFD. -/
def utf8ReplaceGo : Nat → List Nat → List Char
  | 0, _ => []
  | _, [] => []
  | fuel + 1, b :: rest =>
    if b < 0x80 then Char.ofNat b :: utf8ReplaceGo fuel rest
    else if b < 0xC2 then '�' :: utf8ReplaceGo fuel rest
    else if b < 0xE0 then
      match rest with
      | c1 :: rest' =>
        if 0x80 ≤ c1 && c1 < 0xC0 then
          Char.ofNat ((b - 0xC0) * 64 + (c1 - 0x80)) :: utf8ReplaceGo fuel rest'
        else '�' :: utf8ReplaceGo fuel rest
      | [] => ['�']
    else if b < 0xF0 then
      match rest with
      | c1 :: c2 :: rest' =>
        let lo1 := if b = 0xE0 then 0xA0 else 0x80
        let hi1 := if b = 0xED then 0xA0 else 0xC0
        if lo1 ≤ c1 && c1 < hi1 && 0x80 ≤ c2 && c2 < 0xC0 then
          Char.ofNat ((b - 0xE0) * 4096 + (c1 - 0x80) * 64 + (c2 - 0x80)) ::
            utf8ReplaceGo fuel rest'
        else '�' :: utf8ReplaceGo fuel rest
      | _ => '�' :: utf8ReplaceGo fuel rest
    else if b < 0xF5 then
      match rest with
      | c1 :: c2 :: c3 :: rest' =>
        let lo1 := if b = 0xF0 then 0x90 else 0x80
        let hi1 := if b = 0xF4 then 0x90 else 0xC0
        if lo1 ≤ c1 && c1 < hi1 && 0x80 ≤ c2 && c2 < 0xC0 && 0x80 ≤ c3 && c3 < 0xC0 then
          Char.ofNat ((b - 0xF0) * 262144 + (c1 - 0x80) * 4096 +
            (c2 - 0x80) * 64 + (c3 - 0x80)) :: utf8ReplaceGo fuel rest'
        else '�' :: utf8ReplaceGo fuel rest
      | _ => '�' :: utf8ReplaceGo fuel rest
    else '�' :: utf8ReplaceGo fuel rest

/-- UTF-8 decoding with `errors='replace'`: invalid bytes become U+FFFD.
Used by `urllib.parse.unquote`. -/
def utf8DecodeReplace (bs : List Nat) : List Char :=
  utf8ReplaceGo bs.length bs

/-- UTF-8 encoding of one scalar value (helper for percent-decoding tests). -/
def utf8EncodeChar (c : Char) : List Nat :=
  let n := c.toNat
  if n < 0x80 then [n]
  else if n < 0x800 then [0xC0 + n / 64, 0x80 + n % 64]
  else if n < 0x10000 then [0xE0 + n / 4096, 0x80 + n / 64 % 64, 0x80 + n % 64]
  else [0xF0 + n / 262144, 0x80 + n / 4096 % 64, 0x80 + n / 64 % 64, 0x80 + n % 64]

/-! ## Base64 (`base64.b64decode`, non-strict, as used by the parser) -/

/-- Membership in the standard base64 alphabet. -/
def isB64Char (c : Char) : Bool :=
  ('A' ≤ c && c ≤ 'Z') || ('a' ≤ c && c ≤ 'z') || isDigitChar c || c = '+' || c = '/'

/-- Value of a base64 alphabet character. -/
def b64Val (c : Char) : Nat :=
  if 'A' ≤ c && c ≤ 'Z' then c.toNat - 'A'.toNat
  else if 'a' ≤ c && c ≤ 'z' then c.toNat - 'a'.toNat + 26
  else if isDigitChar c then c.toNat - '0'.toNat + 52
  else if c = '+' then 62
  else 63

/-- Decode complete groups of base64 characters into bytes; a trailing group
of 2 or 3 characters yields 1 or 2 bytes (excess low bits dropped). -/
def b64Quads : List Char → List Nat
  | a :: b :: c :: d :: rest =>
    let n := b64Val a * 262144 + b64Val b * 4096 + b64Val c * 64 + b64Val d
    n / 65536 :: n / 256 % 256 :: n % 256 :: b64Quads rest
  | [a, b] =>
    [(b64Val a * 4 + b64Val b / 16)]
  | [a, b, c] =>
    let n := b64Val a * 1024 + b64Val b * 16 + b64Val c / 4
    [n / 256, n % 256]
  | _ => []

/-- `base64.b64decode(s)` with `validate=False` (the parser's usage):
characters outside the alphabet are discarded, the data before the first
`=` is decoded, and malformed padding raises (`none`): a leftover of one
data character, or a partial final group with no padding present, is
`binascii.Error`. -/
def pyB64Decode (s : List Char) : Option (List Nat) :=
  let kept := s.filter (fun c => isB64Char c || c = '=')
  let data := kept.takeWhile (fun c => c ≠ '=')
  if data.length % 4 = 1 then none
  else if data.length % 4 ≠ 0 && kept.length % 4 ≠ 0 then none
  else some (b64Quads data)

/-! ## Percent decoding (`urllib.parse.unquote` / `unquote_plus`) -/

/-- Collect the maximal run of consecutive `%XX` hex escapes at the head of
the input, returning the decoded bytes and the remainder. -/
def percentRun : List Char → List Nat × List Char
  | '%' :: a :: b :: rest =>
    match hexVal a, hexVal b with
    | some ha, some hb =>
      let (bs, rem) := percentRun rest
      ((ha * 16 + hb) :: bs, rem)
    | _, _ => ([], '%' :: a :: b :: rest)
  | cs => ([], cs)

/-- Fuel-driven worker for `unquote`: literal characters pass through, each
maximal `%XX` run is decoded as UTF-8 with `errors='replace'`, and a `%`
not followed by two hex digits stays literal. -/
def unquoteGo : Nat → List Char → List Char
  | 0, _ => []
  | _, [] => []
  | fuel + 1, c :: cs =>
    if c = '%' then
      match percentRun (c :: cs) with
      | ([], _) => '%' :: unquoteGo fuel cs
      | (bs, rem) => utf8DecodeReplace bs ++ unquoteGo fuel rem
    else c :: unquoteGo fuel cs

/-- `urllib.parse.unquote` on a char list. -/
def pyUnquote (cs : List Char) : List Char :=
  unquoteGo cs.length cs

/-- `urllib.parse.unquote_plus`: `+` becomes a space, then percent-decode. -/
def pyUnquotePlus (cs : List Char) : List Char :=
  pyUnquote (cs.map (fun c => if c = '+' then ' ' else c))

/-! ## JSON (`json.loads`, as used by the VMess parser)

JSON numbers are represented by their value truncated toward zero together
with a flag recording whether the literal was an integer (Python would
produce an `int` rather than a `float`); this is exactly the information
`int(...)` extracts from them.  The non-standard `NaN`/`Infinity` literals
accepted by `json.loads` are out of the model (treated as parse failures). -/

inductive Json where
  | null
  | bool (b : Bool)
  | num (i : Int) (isInt : Bool)
  | str (s : List Char)
  | arr (xs : List Json)
  | obj (kvs : List (List Char × Json))

/-- JSON whitespace skip (space, tab, linefeed, return). -/
def jsonWs (cs : List Char) : List Char :=
  cs.dropWhile (fun c => c = ' ' || c = '\t' || c = '\n' || c = '\r')

/-- Parse one JSON string body (after the opening quote), handling the
escape sequences of RFC 8259; unescaped control characters are rejected.
A `\uXXXX` high/low surrogate pair combines into one scalar; a lone
surrogate (which Python would keep) is modelled as U+FFFD. -/
def jsonStrGo : Nat → List Char → Option (List Char × List Char)
  | 0, _ => none
  | _, [] => none
  | fuel + 1, c :: cs =>
    if c = '"' then some ([], cs)
    else if c = '\\' then
      match cs with
      | 'u' :: h1 :: h2 :: h3 :: h4 :: rest =>
        match hexVal h1, hexVal h2, hexVal h3, hexVal h4 with
        | some a, some b, some d, some e =>
          let n := a * 4096 + b * 256 + d * 16 + e
          if 0xD800 ≤ n && n ≤ 0xDBFF then
            match rest with
            | '\\' :: 'u' :: g1 :: g2 :: g3 :: g4 :: rest' =>
              match hexVal g1, hexVal g2, hexVal g3, hexVal g4 with
              | some a', some b', some d', some e' =>
                let m := a' * 4096 + b' * 256 + d' * 16 + e'
                if 0xDC00 ≤ m && m ≤ 0xDFFF then
                  match jsonStrGo fuel rest' with
                  | none => none
                  | some (s, rem) =>
                    some (Char.ofNat (0x10000 + (n - 0xD800) * 1024 + (m - 0xDC00)) :: s, rem)
                else
                  match jsonStrGo fuel rest with
                  | none => none
                  | some (s, rem) => some ('�' :: s, rem)
              | _, _, _, _ =>
                match jsonStrGo fuel rest with
                | none => none
                | some (s, rem) => some ('�' :: s, rem)
            | _ =>
              match jsonStrGo fuel rest with
              | none => none
              | some (s, rem) => some ('�' :: s, rem)
          else if 0xDC00 ≤ n && n ≤ 0xDFFF then
            match jsonStrGo fuel rest with
            | none => none
            | some (s, rem) => some ('�' :: s, rem)
          else
            match jsonStrGo fuel rest with
            | none => none
            | some (s, rem) => some (Char.ofNat n :: s, rem)
        | _, _, _, _ => none
      | e :: rest =>
        let esc : Option Char :=
          if e = '"' then some '"'
          else if e = '\\' then some '\\'
          else if e = '/' then some '/'
          else if e = 'b' then some '\x08'
          else if e = 'f' then some '\x0c'
          else if e = 'n' then some '\n'
          else if e = 'r' then some '\r'
          else if e = 't' then some '\t'
          else none
        match esc with
        | none => none
        | some ch =>
          match jsonStrGo fuel rest with
          | none => none
          | some (s, rem) => some (ch :: s, rem)
      | [] => none
    else if c.toNat < 0x20 then none
    else
      match jsonStrGo fuel cs with
      | none => none
      | some (s, rem) => some (c :: s, rem)

/-- Value of a list of decimal digit characters. -/
def digitsVal (ds : List Char) : Nat :=
  ds.foldl (fun a c => a * 10 + (c.toNat - '0'.toNat)) 0

/-- Parse a JSON number literal at the head of the input:
`-? (0 | [1-9][0-9]*) (\.[0-9]+)? ([eE][+-]?[0-9]+)?`.  The value is
truncated toward zero (which is what Python `int(...)` later does);
the flag records whether the literal had no fraction and no exponent. -/
def jsonNum (cs : List Char) : Option (Json × List Char) :=
  let (neg, cs1) := match cs with
    | '-' :: rest => (true, rest)
    | rest => (false, rest)
  let ip := cs1.takeWhile isDigitChar
  let rest1 := cs1.dropWhile isDigitChar
  if ip.isEmpty then none
  else if ip.length > 1 && ip.headD '0' = '0' then none
  else
    let (fr, rest2) := match rest1 with
      | '.' :: r =>
        let f := r.takeWhile isDigitChar
        (f, r.dropWhile isDigitChar)
      | r => (([] : List Char), r)
    if rest1 ≠ rest2 && fr.isEmpty then none
    else
      let (hasExp, expNeg, ex, rest3) := match rest2 with
        | 'e' :: '-' :: r => (true, true, r.takeWhile isDigitChar, r.dropWhile isDigitChar)
        | 'e' :: '+' :: r => (true, false, r.takeWhile isDigitChar, r.dropWhile isDigitChar)
        | 'e' :: r => (true, false, r.takeWhile isDigitChar, r.dropWhile isDigitChar)
        | 'E' :: '-' :: r => (true, true, r.takeWhile isDigitChar, r.dropWhile isDigitChar)
        | 'E' :: '+' :: r => (true, false, r.takeWhile isDigitChar, r.dropWhile isDigitChar)
        | 'E' :: r => (true, false, r.takeWhile isDigitChar, r.dropWhile isDigitChar)
        | r => (false, false, ([] : List Char), r)
      if hasExp && ex.isEmpty then none
      else
        let isInt := fr.isEmpty && !hasExp
        let e : Int := if expNeg then -(digitsVal ex : Int) else (digitsVal ex : Int)
        -- digit string ip ++ fr with the decimal point at position ip.length + e;
        -- truncate toward zero
        let p : Int := (ip.length : Int) + e
        let digitsAll := ip ++ fr
        let mag : Nat :=
          if p ≤ 0 then 0
          else
            let pn := p.toNat
            if pn ≤ digitsAll.length then digitsVal (digitsAll.take pn)
            else digitsVal digitsAll * 10 ^ (pn - digitsAll.length)
        let v : Int := if neg then -(mag : Int) else (mag : Int)
        some (.num v isInt, rest3)

mutual

/-- Recursive-descent JSON value parser, fuel-driven (fuel bounds the
nesting depth consumed per step; `jsonLoads` supplies enough). -/
def jsonVal : Nat → List Char → Option (Json × List Char)
  | 0, _ => none
  | fuel + 1, cs =>
    let cs := jsonWs cs
    match cs with
    | 'n' :: 'u' :: 'l' :: 'l' :: rest => some (.null, rest)
    | 't' :: 'r' :: 'u' :: 'e' :: rest => some (.bool true, rest)
    | 'f' :: 'a' :: 'l' :: 's' :: 'e' :: rest => some (.bool false, rest)
    | '"' :: rest =>
      match jsonStrGo rest.length rest with
      | none => none
      | some (s, rem) => some (.str s, rem)
    | '[' :: rest =>
      let rest := jsonWs rest
      match rest with
      | ']' :: rem => some (.arr [], rem)
      | _ => jsonArrItems fuel rest []
    | '\x7b' :: rest =>
      let rest := jsonWs rest
      match rest with
      | '\x7d' :: rem => some (.obj [], rem)
      | _ => jsonObjItems fuel rest []
    | c :: _ =>
      if c = '-' || isDigitChar c then jsonNum cs else none
    | [] => none

/-- Parse the items of a non-empty JSON array (after `[`), accumulating in
reverse. -/
def jsonArrItems : Nat → List Char → List Json → Option (Json × List Char)
  | 0, _, _ => none
  | fuel + 1, cs, acc =>
    match jsonVal fuel cs with
    | none => none
    | some (v, rem) =>
      match jsonWs rem with
      | ',' :: rem' => jsonArrItems fuel rem' (v :: acc)
      | ']' :: rem' => some (.arr (v :: acc).reverse, rem')
      | _ => none

/-- Parse the members of a non-empty JSON object (after `{`), accumulating
in reverse. -/
def jsonObjItems : Nat → List Char → List (List Char × Json) → Option (Json × List Char)
  | 0, _, _ => none
  | fuel + 1, cs, acc =>
    match jsonWs cs with
    | '"' :: rest =>
      match jsonStrGo rest.length rest with
      | none => none
      | some (k, rem) =>
        match jsonWs rem with
        | ':' :: rem' =>
          match jsonVal fuel rem' with
          | none => none
          | some (v, rem'') =>
            match jsonWs rem'' with
            | ',' :: rem''' => jsonObjItems fuel rem''' ((k, v) :: acc)
            | '\x7d' :: rem''' => some (.obj ((k, v) :: acc).reverse, rem''')
            | _ => none
        | _ => none
    | _ => none

end

/-- `json.loads`: parse one JSON value, allowing surrounding whitespace and
requiring the whole input to be consumed. -/
def jsonLoads (cs : List Char) : Option Json :=
  match jsonVal (cs.length + 1) cs with
  | none => none
  | some (v, rem) => if (jsonWs rem).isEmpty then some v else none

/-- Dictionary lookup on a parsed JSON object (`data.get(key)`); with
duplicate keys the last occurrence wins, as in a Python dict literal. -/
def jLookup (kvs : List (List Char × Json)) (key : List Char) : Option Json :=
  match kvs.reverse.find? (fun kv => kv.1 = key) with
  | none => none
  | some kv => some kv.2

/-! ## `urllib.parse.urlparse` (the components the parser uses)

Modelled from CPython's `urlsplit`/`_hostinfo`/`_userinfo` on the ASCII
fragment: scheme split at the first `:` when the prefix is a valid scheme,
`//`-netloc delimited by `/?#`, fragment split at the first `#` before the
query split at the first `?`; userinfo is the part of the netloc before its
last `@`; mismatched square brackets in the netloc raise `ValueError`
(modelled as `Except.error`; the NFKC netloc check and bracketed-host
validation of newer CPython are out of the model, which accepts any
bracketed host as older versions do). -/

structure UrlParts where
  scheme : List Char
  netloc : List Char
  query : List Char
  fragment : List Char

/-- Characters allowed in a URL scheme after the initial letter. -/
def isSchemeChar (c : Char) : Bool :=
  ('a' ≤ c && c ≤ 'z') || ('A' ≤ c && c ≤ 'Z') || isDigitChar c ||
    c = '+' || c = '-' || c = '.'

/-- ASCII letter test (by code point). -/
def isAsciiAlpha (c : Char) : Bool :=
  (65 ≤ c.toNat && c.toNat ≤ 90) || (97 ≤ c.toNat && c.toNat ≤ 122)

/-- `urllib.parse.urlsplit` restricted to the components the repository
reads; `Except.error` models a `ValueError` escaping `urlsplit`. -/
def pyUrlsplit (url0 : List Char) : Except Unit UrlParts :=
  -- WHATWG sanitation: strip leading/trailing C0-control-or-space, then
  -- remove every tab, carriage return and linefeed
  let url0 := ((url0.dropWhile (fun c => c.toNat ≤ 0x20)).reverse.dropWhile
    (fun c => c.toNat ≤ 0x20)).reverse
  let url0 := url0.filter (fun c => c ≠ '\t' && c ≠ '\r' && c ≠ '\n')
  let (url1 : List Char) :=
    match splitFirst ':' url0 with
    | some (before, after) =>
      match before with
      | [] => url0
      | c :: rest =>
        if isAsciiAlpha c && rest.all isSchemeChar then after else url0
    | none => url0
  let schemeOf : List Char :=
    match splitFirst ':' url0 with
    | some (before, _) =>
      match before with
      | [] => []
      | c :: rest => if isAsciiAlpha c && rest.all isSchemeChar then pyLowerList before else []
    | none => []
  if listStartsWith url1 ['/', '/'] then
    let rest := url1.drop 2
    let netloc := rest.takeWhile (fun c => c ≠ '/' && c ≠ '?' && c ≠ '#')
    let url2 := rest.dropWhile (fun c => c ≠ '/' && c ≠ '?' && c ≠ '#')
    if (netloc.contains '[') ≠ (netloc.contains ']') then .error ()
    else
      let (url3, frag) := match splitFirst '#' url2 with
        | none => (url2, ([] : List Char))
        | some (a, b) => (a, b)
      let query := match splitFirst '?' url3 with
        | none => ([] : List Char)
        | some (_, b) => b
      .ok { scheme := schemeOf, netloc := netloc, query := query, fragment := frag }
  else
    let (url3, frag) := match splitFirst '#' url1 with
      | none => (url1, ([] : List Char))
      | some (a, b) => (a, b)
    let query := match splitFirst '?' url3 with
      | none => ([] : List Char)
      | some (_, b) => b
    .ok { scheme := schemeOf, netloc := [], query := query, fragment := frag }

/-- CPython `_hostinfo`: `(hostname-as-written, port-string-or-None)`,
taking the part of the netloc after the last `@`, handling a bracketed
host, and mapping an empty port string to `None`. -/
def netlocHostinfo (netloc : List Char) : List Char × Option (List Char) :=
  let hostinfo := (pyRPartition '@' netloc).2.2
  let br := pyPartition '[' hostinfo
  if br.2.1 then
    let (host, _, after) := pyPartition ']' br.2.2
    let port := (pyPartition ':' after).2.2
    (host, if port = [] then none else some port)
  else
    let (host, _, port) := pyPartition ':' hostinfo
    (host, if port = [] then none else some port)

/-- CPython `_userinfo`: `(username, password)`, present only when the
netloc contains an `@`; the password requires a `:` in the userinfo. -/
def netlocUserinfo (netloc : List Char) : Option (List Char) × Option (List Char) :=
  let (userinfo, haveAt, _) := pyRPartition '@' netloc
  if haveAt then
    let (u, haveColon, p) := pyPartition ':' userinfo
    (some u, if haveColon then some p else none)
  else (none, none)

/-- The `.hostname` property: lowercased, `None` when empty. -/
def urlHostname (netloc : List Char) : Option (List Char) :=
  if pyLowerList (netlocHostinfo netloc).1 = [] then none
  else some (pyLowerList (netlocHostinfo netloc).1)

/-- The `.port` property: absent port is `None`; a port string is parsed
with `int(_, 10)` and must lie in `0..65535`, otherwise `ValueError`
(modelled as `Except.error`). -/
def pyPortVal (p : Option (List Char)) : Except Unit (Option Int) :=
  match p with
  | none => .ok none
  | some s =>
    match pyParseInt s with
    | none => .error ()
    | some i => if 0 ≤ i ∧ i ≤ 65535 then .ok (some i) else .error ()

/-! ## `urllib.parse.parse_qs` -/

/-- `parse_qsl` with the default arguments used by the repository
(`keep_blank_values=False`, separator `&`): pairs without `=` or with an
empty value are dropped; names and values are `unquote_plus`-decoded. -/
def parseQsl (qs : List Char) : List (List Char × List Char) :=
  (splitAll '&' qs).filterMap (fun nv =>
    if nv = [] then none
    else match splitFirst '=' nv with
      | none => none
      | some (n, v) =>
        if v = [] then none else some (pyUnquotePlus n, pyUnquotePlus v))

/-- `params.get(key, [default])[0]` over `parse_qs` output: the first value
bound to `key`, or the default. -/
def qsGet (q : List (List Char × List Char)) (key dflt : List Char) : List Char :=
  match q.find? (fun kv => kv.1 = key) with
  | none => dflt
  | some kv => kv.2

/-- `params.get(key, [None])[0]` over `parse_qs` output. -/
def qsGetOpt (q : List (List Char × List Char)) (key : List Char) : Option (List Char) :=
  match q.find? (fun kv => kv.1 = key) with
  | none => none
  | some kv => some kv.2

/-- Python's `a or b` on strings: `a` unless it is empty. -/
def pyOr (a b : List Char) : List Char :=
  if a = [] then b else a

/-! ## The candidate model (`ProxyConfig`, from `src/parser.py`) -/

/-- The `ProxyConfig` dataclass of `src/parser.py`.  Optional fields keep
their `None` default as `none`.  `port` is `Int` because the VMess path
stores `int(data.get('port', 0))` unchecked. -/
structure ProxyConfig where
  protocol : String
  name : String
  server : String
  port : Int
  raw_config : String
  uuid : Option String := none
  password : Option String := none
  method : Option String := none
  alter_id : Option Int := none
  network : Option String := none
  security : Option String := none
  path : Option String := none
  host : Option String := none
  tls : Option Bool := none
  sni : Option String := none
  flow : Option String := none
  pbk : Option String := none
  sid : Option String := none
  fp : Option String := none
deriving DecidableEq, Repr

/-- Rendering of a JSON value in a Python string context (`f"...{v}..."`).
Fields of a VMess blob are normally strings; for non-string values the
rendering of floats and containers is approximate (no claim depends on
it), while `None`/booleans/ints match Python's `str`. -/
def pyStr : Json → List Char
  | .null => "None".data
  | .bool b => if b then "True".data else "False".data
  | .num i true => pyIntRepr i
  | .num i false => pyIntRepr i ++ ['.', '0']
  | .str s => s
  | .arr _ => "[...]".data
  | .obj _ => ['\x7b', '.', '.', '.', '\x7d']

/-- Python `int(v)` on a JSON-decoded value: ints and floats (truncated
toward zero), booleans, and strings parsed base-10; anything else raises
(`none`, caught by the parser's `except`). -/
def pyJsonInt : Json → Option Int
  | .num i _ => some i
  | .bool b => some (if b then 1 else 0)
  | .str s => pyParseInt s
  | _ => none

/-- `data.get(key, default)` on a decoded JSON object. -/
def jGet (kvs : List (List Char × Json)) (key : List Char) (dflt : Json) : Json :=
  (jLookup kvs key).getD dflt

/-! ## The protocol parsers (`ConfigParser` in `src/parser.py`) -/

/-- `ConfigParser._parse_vless`: generic-URI parse; `uuid`, `server`,
`port` all required to be truthy; query parameters fill the transport and
TLS fields with the documented defaults; the percent-decoded fragment (or
`"vless_<server>"`) is the display name.  Any `ValueError` from the URI
parse or the port access yields `none`. -/
def parseVless (url : String) : Option ProxyConfig :=
  match pyUrlsplit url.data with
  | .error _ => none
  | .ok parsed =>
    match pyPortVal (netlocHostinfo parsed.netloc).2 with
    | .error _ => none
    | .ok port? =>
      match (netlocUserinfo parsed.netloc).1 with
      | none => none
      | some uuid =>
      match urlHostname parsed.netloc with
      | none => none
      | some server =>
      match port? with
      | none => none
      | some port =>
        if uuid = [] ∨ port = 0 then none
        else
          let params := parseQsl parsed.query
          let name := if parsed.fragment ≠ [] then pyUnquote parsed.fragment
            else "vless_".data ++ server
          let security := qsGet params "security".data "none".data
          some { protocol := "vless", name := ⟨name⟩, server := ⟨server⟩, port := port,
                 raw_config := url,
                 uuid := some ⟨uuid⟩,
                 network := some ⟨qsGet params "type".data "tcp".data⟩,
                 security := some ⟨security⟩,
                 path := some ⟨qsGet params "path".data []⟩,
                 host := some ⟨qsGet params "host".data []⟩,
                 sni := some ⟨pyOr (qsGet params "sni".data []) (qsGet params "peer".data [])⟩,
                 flow := (qsGetOpt params "flow".data).map (⟨·⟩),
                 pbk := (qsGetOpt params "pbk".data).map (⟨·⟩),
                 sid := (qsGetOpt params "sid".data).map (⟨·⟩),
                 fp := (qsGetOpt params "fp".data).map (⟨·⟩),
                 tls := some (security = "tls".data ∨ security = "xtls".data ∨
                   security = "reality".data) }

/-- The base64 payload of a VMess line: strip the 8-character scheme and
restore padding to a multiple of 4. -/
def vmessB64 (url : String) : List Char :=
  if (url.data.drop 8).length % 4 ≠ 0 then
    url.data.drop 8 ++ List.replicate (4 - (url.data.drop 8).length % 4) '='
  else url.data.drop 8

/-- The decode pipeline of `_parse_vmess`: base64-decode the padded
payload, UTF-8-decode, JSON-parse; `none` models any raised decode error. -/
def vmessDecode (url : String) : Option Json :=
  match pyB64Decode (vmessB64 url) with
  | none => none
  | some bytes =>
    match utf8DecodeStrict bytes with
    | none => none
    | some jsonChars => jsonLoads jsonChars

/-- `ConfigParser._parse_vmess`: strip the scheme, restore base64 padding,
base64-decode, UTF-8-decode, JSON-parse; map the named fields with their
defaults (a non-object JSON value makes `data.get` raise, hence `none`).
No validation of `server` or `port` is performed on this path. -/
def parseVmess (url : String) : Option ProxyConfig :=
  match vmessDecode url with
  | some (.obj kvs) =>
    match pyJsonInt (jGet kvs "port".data (.num 0 true)) with
    | none => none
    | some port =>
      match pyJsonInt (jGet kvs "aid".data (.num 0 true)) with
      | none => none
      | some aid =>
          some { protocol := "vmess",
                 name := ⟨pyStr (jGet kvs "ps".data
                   (.str ("vmess_".data ++ pyStr (jGet kvs "add".data (.str "unknown".data)))))⟩,
                 server := ⟨pyStr (jGet kvs "add".data (.str []))⟩,
                 port := port,
                 raw_config := url,
                 uuid := some ⟨pyStr (jGet kvs "id".data (.str []))⟩,
                 alter_id := some aid,
                 network := some ⟨pyStr (jGet kvs "net".data (.str "tcp".data))⟩,
                 security := some ⟨pyStr (jGet kvs "tls".data (.str "none".data))⟩,
                 path := some ⟨pyStr (jGet kvs "path".data (.str []))⟩,
                 host := some ⟨pyStr (jGet kvs "host".data (.str []))⟩,
                 tls := some (match jLookup kvs "tls".data with
                   | some (.str s) => s = "tls".data
                   | _ => false) }
  | _ => none

/-- `ConfigParser._parse_ss`: URI parse with `server`/`port` required; if a
password sub-component is present (truthy) the userinfo and password are
percent-decoded as method/password, otherwise the userinfo is padded,
base64-decoded and split on the first `:`, falling back to the default
cipher with the (padded) raw text as password. -/
def parseSs (url : String) : Option ProxyConfig :=
  match pyUrlsplit url.data with
  | .error _ => none
  | .ok parsed =>
    match pyPortVal (netlocHostinfo parsed.netloc).2 with
    | .error _ => none
    | .ok port? =>
      match urlHostname parsed.netloc with
      | none => none
      | some server =>
      match port? with
      | none => none
      | some port =>
        if port = 0 then none
        else
          let name := if parsed.fragment ≠ [] then pyUnquote parsed.fragment
            else "ss_".data ++ server
          let (user?, pass?) := netlocUserinfo parsed.netloc
          let mp : List Char × Option (List Char) :=
            if pass?.getD [] ≠ [] then
              (pyUnquote (user?.getD []), some (pyUnquote (pass?.getD [])))
            else
              match user? with
              | none => ("aes-256-gcm".data, none)
              | some u =>
                let u' := if u.length % 4 ≠ 0 then
                    u ++ List.replicate (4 - u.length % 4) '=' else u
                match pyB64Decode u' with
                | none => ("aes-256-gcm".data, some u')
                | some bytes =>
                  match utf8DecodeStrict bytes with
                  | none => ("aes-256-gcm".data, some u')
                  | some dec =>
                    match splitFirst ':' dec with
                    | none => ("aes-256-gcm".data, some u')
                    | some (m, p) => (m, some p)
          some { protocol := "ss", name := ⟨name⟩, server := ⟨server⟩, port := port,
                 raw_config := url,
                 method := some ⟨mp.1⟩,
                 password := mp.2.map (⟨·⟩) }

/-- `ConfigParser._parse_trojan`: like the VLESS path but with the
password as the credential, no `security`/`flow`/reality fields, and
`tls=True` unconditionally. -/
def parseTrojan (url : String) : Option ProxyConfig :=
  match pyUrlsplit url.data with
  | .error _ => none
  | .ok parsed =>
    match pyPortVal (netlocHostinfo parsed.netloc).2 with
    | .error _ => none
    | .ok port? =>
      match (netlocUserinfo parsed.netloc).1 with
      | none => none
      | some password =>
      match urlHostname parsed.netloc with
      | none => none
      | some server =>
      match port? with
      | none => none
      | some port =>
        if password = [] ∨ port = 0 then none
        else
          let params := parseQsl parsed.query
          let name := if parsed.fragment ≠ [] then pyUnquote parsed.fragment
            else "trojan_".data ++ server
          some { protocol := "trojan", name := ⟨name⟩, server := ⟨server⟩, port := port,
                 raw_config := url,
                 password := some ⟨password⟩,
                 network := some ⟨qsGet params "type".data "tcp".data⟩,
                 path := some ⟨qsGet params "path".data []⟩,
                 host := some ⟨qsGet params "host".data []⟩,
                 sni := some ⟨pyOr (qsGet params "sni".data []) (qsGet params "peer".data [])⟩,
                 tls := some true }

/-- `ConfigParser.parse_config_line`: strip, reject empty lines, dispatch
on the four recognized scheme literals, otherwise `none`. -/
def parse_config_line (line : String) : Option ProxyConfig :=
  let l := pyStripList line.data
  if l = [] then none
  else if listStartsWith l "vless://".data then parseVless ⟨l⟩
  else if listStartsWith l "vmess://".data then parseVmess ⟨l⟩
  else if listStartsWith l "ss://".data then parseSs ⟨l⟩
  else if listStartsWith l "trojan://".data then parseTrojan ⟨l⟩
  else none

/-! ## Deduplication (`ConfigSourceManager` in `src/config_sources.py`) -/

/-- An optional string in a Python f-string position: `None` renders as
`"None"`. -/
def optStr (o : Option String) : String :=
  match o with
  | none => "None"
  | some s => s

/-- An integer in a Python f-string position. -/
def intStr (i : Int) : String :=
  ⟨pyIntRepr i⟩

/-- `ConfigSourceManager._get_config_key`: the protocol-specific canonical
key; unknown protocols fall back to the raw descriptor. -/
def getConfigKey (c : ProxyConfig) : String :=
  if c.protocol = "vless" then
    "vless:" ++ optStr c.uuid ++ ":" ++ c.server ++ ":" ++ intStr c.port ++ ":" ++
      optStr c.network ++ ":" ++ optStr c.security ++ ":" ++ optStr c.path ++ ":" ++
      optStr c.host
  else if c.protocol = "vmess" then
    "vmess:" ++ optStr c.uuid ++ ":" ++ c.server ++ ":" ++ intStr c.port ++ ":" ++
      optStr c.network ++ ":" ++ optStr c.path ++ ":" ++ optStr c.host
  else if c.protocol = "ss" then
    "ss:" ++ optStr c.method ++ ":" ++ c.server ++ ":" ++ intStr c.port
  else if c.protocol = "trojan" then
    "trojan:" ++ optStr c.password ++ ":" ++ c.server ++ ":" ++ intStr c.port ++ ":" ++
      optStr c.network ++ ":" ++ optStr c.path ++ ":" ++ optStr c.sni
  else c.raw_config

/-- The loop body of `ConfigSourceManager.deduplicate`, with the
`seen_keys` set modelled as the list of keys recorded so far (membership is
all the code uses). -/
def dedupGo (seen : List String) : List String → List ProxyConfig
  | [] => []
  | l :: rest =>
    match parse_config_line l with
    | none => dedupGo seen rest
    | some c =>
      let k := getConfigKey c
      if k ∈ seen then dedupGo seen rest
      else c :: dedupGo (k :: seen) rest

/-- `ConfigSourceManager.deduplicate`: parse each line, keep a candidate
only when its canonical key is new. -/
def deduplicate (lines : List String) : List ProxyConfig :=
  dedupGo [] lines

/-! ## The reachability probe (`TCPPreChecker` in `src/tcp_checker.py`)

The network environment of one probe call is abstracted by `ProbeEnv`:
whether DNS resolves, how the TCP connect ends, whether the TLS handshake
inside `wrap_socket` succeeds, whether `cipher()` is non-null, and whether
the protocol-specific probe `send` raises.  The diagnostic string is
abstracted to its constant tag (the code only appends a latency figure),
and the result records whether the probe opened a TCP socket and whether
every socket it opened is closed again when it returns.  On a handshake
failure inside `wrap_socket` the CPython `ssl` module closes the socket it
consumed; inside the `with` block the context manager closes it. -/

inductive ConnectOutcome where
  | ok
  | timeout
  | failed
deriving DecidableEq, Repr

structure ProbeEnv where
  dnsOk : Bool
  connect : ConnectOutcome
  tlsHandshakeOk : Bool
  cipherOk : Bool
  sendOk : Bool
deriving DecidableEq, Repr

inductive ProbeReason where
  | dnsFailed
  | tcpTimeout
  | tcpFailed
  | sslError
  | sslHandshakeFailed
  | sslOk
  | tcpOk
deriving DecidableEq, Repr

structure ProbeResult where
  success : Bool
  reason : ProbeReason
  socketOpened : Bool
  socketClosed : Bool
deriving DecidableEq, Repr

/-- Whether the probe takes the TLS branch:
`proxy.tls or proxy.security in ['tls', 'xtls', 'reality']`. -/
def probeWantsTLS (proxy : ProxyConfig) : Bool :=
  proxy.tls = some true ∨ proxy.security = some "tls" ∨
    proxy.security = some "xtls" ∨ proxy.security = some "reality"

/-- `TCPPreChecker.test_config_tcp` over an abstract network environment.
The Trojan probe send is not individually guarded, so its failure is
caught by the surrounding `except` as an SSL error; the VLESS probe send
sits in its own `try`/`except: pass`.  The sockets opened on the TCP
connect failure paths are returned without being closed. -/
def test_config_tcp (proxy : ProxyConfig) (env : ProbeEnv) : ProbeResult :=
  if !env.dnsOk then
    { success := false, reason := .dnsFailed, socketOpened := false, socketClosed := true }
  else
    match env.connect with
    | .timeout =>
      { success := false, reason := .tcpTimeout, socketOpened := true, socketClosed := false }
    | .failed =>
      { success := false, reason := .tcpFailed, socketOpened := true, socketClosed := false }
    | .ok =>
      if probeWantsTLS proxy then
        if !env.tlsHandshakeOk then
          { success := false, reason := .sslError, socketOpened := true, socketClosed := true }
        else if !env.cipherOk then
          { success := false, reason := .sslHandshakeFailed, socketOpened := true,
            socketClosed := true }
        else if proxy.protocol = "trojan" then
          if env.sendOk then
            { success := true, reason := .sslOk, socketOpened := true, socketClosed := true }
          else
            { success := false, reason := .sslError, socketOpened := true, socketClosed := true }
        else
          { success := true, reason := .sslOk, socketOpened := true, socketClosed := true }
      else
        { success := true, reason := .tcpOk, socketOpened := true, socketClosed := true }

/-! ## The orchestrator (`ConfigCheckerBot` in `v2ray_checker.py`)

Worker pools complete in an unspecified order; each phase's completion
order is modelled by a reordering function applied to the phase's input
list before the sequential collection loop runs, and theorems that need it
assume the reordering is a permutation.  Latencies are modelled as integer
milliseconds (the claims about them — strict positivity and ascending
order — do not depend on fractional values). -/

/-- The collection loop of `ConfigCheckerBot._run_xray_validation`: each
completed future contributes its candidate exactly when it succeeded with
strictly positive latency; appends happen in completion order. -/
def collectWorking : List (ProxyConfig × Bool × Int) → List (ProxyConfig × Int)
  | [] => []
  | (c, s, l) :: rest =>
    if s = true ∧ 0 < l then (c, l) :: collectWorking rest
    else collectWorking rest

/-- The comparison key of `self.working_configs.sort(key=lambda x: x[1])`:
order result pairs by latency. -/
def latLe (a b : ProxyConfig × Int) : Prop :=
  a.2 ≤ b.2

instance : DecidableRel latLe :=
  fun a b => inferInstanceAs (Decidable (a.2 ≤ b.2))

instance : IsTotal (ProxyConfig × Int) latLe :=
  ⟨fun a b => Int.le_total a.2 b.2⟩

instance : IsTrans (ProxyConfig × Int) latLe :=
  ⟨fun _ _ _ h h' => Int.le_trans h h'⟩

/-- `self.working_configs.sort(key=lambda x: x[1])`: a stable sort by
latency (Python's sort is stable; so is insertion sort). -/
def sortWorking (l : List (ProxyConfig × Int)) : List (ProxyConfig × Int) :=
  List.insertionSort latLe l

inductive RunExit where
  | noConfigs
  | noTcpSurvivors
  | completed
deriving DecidableEq, Repr

/-- What a run produces: how it ended, whether `save_results` wrote the
report file, and the ranked list the report body is generated from. -/
structure RunOutcome where
  exit : RunExit
  reportWritten : Bool
  report : List (ProxyConfig × Int)
deriving DecidableEq, Repr

/-- `ConfigCheckerBot.run` over fetched raw lines.  `tcpOrder` and
`xrayOrder` model the completion orders of the two worker pools; `tcpOk`
and `xrayRes` model the per-candidate outcomes of `_test_tcp` and
`_test_xray`.  `run` returns without calling `save_results` when no
candidates were parsed; it calls `save_results` and returns when no
candidate passed the TCP precheck; otherwise it sorts and saves. -/
def runBot (rawLines : List String) (tcpOrder : List ProxyConfig → List ProxyConfig)
    (tcpOk : ProxyConfig → Bool) (xrayOrder : List ProxyConfig → List ProxyConfig)
    (xrayRes : ProxyConfig → Bool × Int) : RunOutcome :=
  let configs := deduplicate rawLines
  if configs = [] then
    { exit := .noConfigs, reportWritten := false, report := [] }
  else
    let passed := (tcpOrder configs).filter tcpOk
    if passed = [] then
      { exit := .noTcpSurvivors, reportWritten := true, report := [] }
    else
      let working := collectWorking
        ((xrayOrder passed).map (fun c => (c, (xrayRes c).1, (xrayRes c).2)))
      { exit := .completed, reportWritten := true, report := sortWorking working }

/-! ## Concrete values used in the theorems below -/

/-- The candidate produced from the Shadowsocks scenario line. -/
def ssExample : ProxyConfig :=
  { protocol := "ss", name := "s1", server := "host", port := 8388,
    raw_config := "ss://YWVzLTI1Ni1nY206cGFzcw==@host:8388#s1",
    method := some "aes-256-gcm", password := some "pass" }

/-- A minimal candidate for exercising the pipeline models. -/
def probeCfg (nm : String) : ProxyConfig :=
  { protocol := "ss", name := nm, server := "h", port := 1, raw_config := nm }

/-- A Trojan candidate as the parser would shape it (TLS forced on). -/
def trojanProbe : ProxyConfig :=
  { protocol := "trojan", name := "t", server := "h", port := 443, raw_config := "t",
    password := some "pw", network := some "tcp", path := some "", host := some "",
    sni := some "", tls := some true }

/-- A VLESS candidate with `security=tls` as the parser would shape it. -/
def vlessProbe : ProxyConfig :=
  { protocol := "vless", name := "v", server := "h", port := 443, raw_config := "v",
    uuid := some "u", network := some "tcp", security := some "tls", path := some "",
    host := some "", sni := some "", tls := some true }

/-- The URL components of `vless://u@h:1?peer=p.example`. -/
def peerParsed : UrlParts :=
  { scheme := "vless".data, netloc := "u@h:1".data,
    query := "peer=p.example".data, fragment := [] }

/-- The candidate parsed from `vless://u@h:1?peer=p.example`. -/
def vlessPeerExample : ProxyConfig :=
  { protocol := "vless", name := "vless_h", server := "h", port := 1,
    raw_config := "vless://u@h:1?peer=p.example", uuid := some "u",
    network := some "tcp", security := some "none", path := some "", host := some "",
    tls := some false, sni := some "p.example" }

/-! ## Shape lemmas about the parsers -/

theorem stringMk_ne_empty {s : List Char} (h : s ≠ []) : (⟨s⟩ : String) ≠ "" :=
  fun he => h (congrArg String.data he)

/-- A port accepted by the `.port` property lies in `0..65535`. -/
theorem pyPortVal_ok_bounds {p : Option (List Char)} {i : Int}
    (h : pyPortVal p = .ok (some i)) : 0 ≤ i ∧ i ≤ 65535 := by
  cases p with
  | none => simp [pyPortVal] at h
  | some s =>
    cases hp : pyParseInt s with
    | none => simp [pyPortVal, hp] at h
    | some j =>
      simp only [pyPortVal, hp] at h
      split at h
      · next hc => cases h; exact hc
      · simp at h

/-- A hostname returned by the `.hostname` property is non-empty. -/
theorem urlHostname_ne_nil {n s : List Char} (h : urlHostname n = some s) : s ≠ [] := by
  unfold urlHostname at h
  split at h
  · simp at h
  · next hne => cases h; exact hne

/-- Every candidate out of the VLESS path is labelled `vless`, has a
non-empty server and a port in `1..65535`. -/
theorem parseVless_shape {url : String} {c : ProxyConfig} (h : parseVless url = some c) :
    c.protocol = "vless" ∧ c.server ≠ "" ∧ 1 ≤ c.port ∧ c.port ≤ 65535 := by
  unfold parseVless at h
  split at h
  · exact absurd h (by simp)
  rename_i parsed hparsed
  split at h
  · exact absurd h (by simp)
  rename_i port? hport
  split at h
  · exact absurd h (by simp)
  rename_i uuid huuid
  split at h
  · exact absurd h (by simp)
  rename_i server hhost
  split at h
  · exact absurd h (by simp)
  rename_i port
  split at h
  · exact absurd h (by simp)
  rename_i hcond
  cases h
  have hb := pyPortVal_ok_bounds hport
  refine ⟨rfl, stringMk_ne_empty (urlHostname_ne_nil hhost), ?_, hb.2⟩
  have hpz : port ≠ 0 := fun h0 => hcond (Or.inr h0)
  show (1 : Int) ≤ port
  omega

/-- Every candidate out of the Shadowsocks path is labelled `ss`, has a
non-empty server and a port in `1..65535`. -/
theorem parseSs_shape {url : String} {c : ProxyConfig} (h : parseSs url = some c) :
    c.protocol = "ss" ∧ c.server ≠ "" ∧ 1 ≤ c.port ∧ c.port ≤ 65535 := by
  unfold parseSs at h
  split at h
  · exact absurd h (by simp)
  rename_i parsed hparsed
  split at h
  · exact absurd h (by simp)
  rename_i port? hport
  split at h
  · exact absurd h (by simp)
  rename_i server hhost
  split at h
  · exact absurd h (by simp)
  rename_i port
  split at h
  · exact absurd h (by simp)
  rename_i hcond
  cases h
  have hb := pyPortVal_ok_bounds hport
  refine ⟨rfl, stringMk_ne_empty (urlHostname_ne_nil hhost), ?_, hb.2⟩
  show (1 : Int) ≤ port
  omega

/-- Every candidate out of the Trojan path is labelled `trojan`, has a
non-empty server and a port in `1..65535`. -/
theorem parseTrojan_shape {url : String} {c : ProxyConfig} (h : parseTrojan url = some c) :
    c.protocol = "trojan" ∧ c.server ≠ "" ∧ 1 ≤ c.port ∧ c.port ≤ 65535 := by
  unfold parseTrojan at h
  split at h
  · exact absurd h (by simp)
  rename_i parsed hparsed
  split at h
  · exact absurd h (by simp)
  rename_i port? hport
  split at h
  · exact absurd h (by simp)
  rename_i password hpw
  split at h
  · exact absurd h (by simp)
  rename_i server hhost
  split at h
  · exact absurd h (by simp)
  rename_i port
  split at h
  · exact absurd h (by simp)
  rename_i hcond
  cases h
  have hb := pyPortVal_ok_bounds hport
  refine ⟨rfl, stringMk_ne_empty (urlHostname_ne_nil hhost), ?_, hb.2⟩
  have hpz : port ≠ 0 := fun h0 => hcond (Or.inr h0)
  show (1 : Int) ≤ port
  omega

/-- Every candidate out of the VMess path is labelled `vmess` (no further
validation happens on that path). -/
theorem parseVmess_protocol {url : String} {c : ProxyConfig} (h : parseVmess url = some c) :
    c.protocol = "vmess" := by
  unfold parseVmess at h
  split at h
  next kvs =>
    split at h
    · exact absurd h (by simp)
    · split at h
      · exact absurd h (by simp)
      · cases h; rfl
  next => exact absurd h (by simp)

/-! ## Deduplication lemmas -/

/-- The output of the deduplication loop is a sublist of the successfully
parsed candidates taken in input order. -/
theorem dedupGo_sublist (seen : List String) (lines : List String) :
    List.Sublist (dedupGo seen lines) (lines.filterMap parse_config_line) := by
  induction lines generalizing seen with
  | nil => simp [dedupGo]
  | cons l rest ih =>
    cases hp : parse_config_line l with
    | none => simpa [dedupGo, hp, List.filterMap_cons, hp] using ih seen
    | some c =>
      by_cases hk : getConfigKey c ∈ seen
      · simp only [dedupGo, hp, if_pos hk, List.filterMap_cons]
        exact (ih seen).trans (List.sublist_cons_self c _)
      · simp only [dedupGo, hp, if_neg hk, List.filterMap_cons]
        exact (ih (getConfigKey c :: seen)).cons₂ c

/-- Keys emitted by the deduplication loop are pairwise distinct and avoid
the already-seen set. -/
theorem dedupGo_keys (seen : List String) (lines : List String) :
    (dedupGo seen lines).Pairwise (fun a b => getConfigKey a ≠ getConfigKey b) ∧
      ∀ c ∈ dedupGo seen lines, getConfigKey c ∉ seen := by
  induction lines generalizing seen with
  | nil => simp [dedupGo]
  | cons l rest ih =>
    cases hp : parse_config_line l with
    | none => simpa [dedupGo, hp] using ih seen
    | some c =>
      by_cases hk : getConfigKey c ∈ seen
      · simpa [dedupGo, hp, if_pos hk] using ih seen
      · simp only [dedupGo, hp, if_neg hk]
        obtain ⟨ihp, ihs⟩ := ih (getConfigKey c :: seen)
        refine ⟨List.pairwise_cons.mpr ⟨?_, ihp⟩, ?_⟩
        · intro b hb heq
          exact (ihs b hb) (by rw [← heq]; exact List.mem_cons_self _ _)
        · intro d hd
          rcases List.mem_cons.mp hd with rfl | hd'
          · exact hk
          · exact fun hds => (ihs d hd') (List.mem_cons_of_mem _ hds)

/-! ## Claim theorems -/

/-- C3: for every finite ordered sequence of raw lines, the deduplicator
returns at most as many candidates as there are lines, keeps them in
first-seen input order (the output is a sublist of the parsed candidates in
input order, so unparsable lines contribute nothing), and no two output
candidates share a canonical key. -/
theorem deduplicate_spec : ∀ lines : List String,
    (deduplicate lines).length ≤ lines.length ∧
    List.Sublist (deduplicate lines) (lines.filterMap parse_config_line) ∧
    (deduplicate lines).Pairwise (fun a b => getConfigKey a ≠ getConfigKey b) := by
  intro lines
  refine ⟨?_, dedupGo_sublist [] lines, (dedupGo_keys [] lines).1⟩
  exact le_trans (dedupGo_sublist [] lines).length_le (List.length_filterMap_le _ _)

/-- C1, counterexample: the VMess path performs no validation, so the line
`vmess://e30` (base64 of the empty JSON object) produces a candidate whose
server is the empty string and whose port is 0 — outside `1..65535`. -/
theorem vmess_invariant_counterexample :
    (parse_config_line "vmess://e30").map (fun c => (c.server, c.port)) = some ("", 0) := by
  rfl

/-- C1, amended: every candidate returned by `parse_config_line` carries
one of the four recognized protocols, and every candidate produced by the
VLESS, Shadowsocks or Trojan paths has a non-empty server and a port in
`1..65535`; the VMess path does not validate server or port. -/
theorem parse_config_line_invariant (line : String) (c : ProxyConfig)
    (h : parse_config_line line = some c) :
    (c.protocol = "vless" ∨ c.protocol = "vmess" ∨ c.protocol = "ss" ∨
      c.protocol = "trojan") ∧
    (c.protocol ≠ "vmess" → c.server ≠ "" ∧ 1 ≤ c.port ∧ c.port ≤ 65535) := by
  simp only [parse_config_line] at h
  split at h
  · exact absurd h (by simp)
  split at h
  · have hs := parseVless_shape h
    exact ⟨Or.inl hs.1, fun _ => hs.2⟩
  split at h
  · have hv := parseVmess_protocol h
    exact ⟨Or.inr (Or.inl hv), fun hne => absurd hv hne⟩
  split at h
  · have hs := parseSs_shape h
    exact ⟨Or.inr (Or.inr (Or.inl hs.1)), fun _ => hs.2⟩
  split at h
  · have hs := parseTrojan_shape h
    exact ⟨Or.inr (Or.inr (Or.inr hs.1)), fun _ => hs.2⟩
  · exact absurd h (by simp)

/-- C1, witness: the Shadowsocks scenario line parses, and the invariant of
`parse_config_line_invariant` holds for the resulting candidate. -/
theorem parse_config_line_invariant_witness :
    parse_config_line "ss://YWVzLTI1Ni1nY206cGFzcw==@host:8388#s1" = some ssExample ∧
    ((ssExample.protocol = "vless" ∨ ssExample.protocol = "vmess" ∨
        ssExample.protocol = "ss" ∨ ssExample.protocol = "trojan") ∧
      (ssExample.protocol ≠ "vmess" →
        ssExample.server ≠ "" ∧ 1 ≤ ssExample.port ∧ ssExample.port ≤ 65535)) :=
  ⟨rfl, parse_config_line_invariant "ss://YWVzLTI1Ni1nY206cGFzcw==@host:8388#s1" ssExample rfl⟩

/-- C9: the Shadowsocks URI `ss://YWVzLTI1Ni1nY206cGFzcw==@host:8388#s1`
parses to a candidate with protocol `ss`, server `host`, port 8388, method
`aes-256-gcm` and password `pass` (the user-info is padded, base64-decoded
and split on the first colon). -/
theorem ss_scenario :
    parse_config_line "ss://YWVzLTI1Ni1nY206cGFzcw==@host:8388#s1" = some ssExample := by
  rfl

/-- C4: for each recognized protocol the canonical key is a function solely
of that protocol's key-relevant fields (vless: uuid/server/port/network/
security/path/host; vmess: uuid/server/port/network/path/host; ss: method/
server/port; trojan: password/server/port/network/path/sni); and in the
end-to-end scenario of two VLESS lines differing only in their fragment,
deduplication keeps exactly the first-seen candidate, named `name1`. -/
theorem config_key_canonical :
    (∀ c1 c2 : ProxyConfig, c1.protocol = "vless" → c2.protocol = "vless" →
      c1.uuid = c2.uuid → c1.server = c2.server → c1.port = c2.port →
      c1.network = c2.network → c1.security = c2.security → c1.path = c2.path →
      c1.host = c2.host → getConfigKey c1 = getConfigKey c2) ∧
    (∀ c1 c2 : ProxyConfig, c1.protocol = "vmess" → c2.protocol = "vmess" →
      c1.uuid = c2.uuid → c1.server = c2.server → c1.port = c2.port →
      c1.network = c2.network → c1.path = c2.path → c1.host = c2.host →
      getConfigKey c1 = getConfigKey c2) ∧
    (∀ c1 c2 : ProxyConfig, c1.protocol = "ss" → c2.protocol = "ss" →
      c1.method = c2.method → c1.server = c2.server → c1.port = c2.port →
      getConfigKey c1 = getConfigKey c2) ∧
    (∀ c1 c2 : ProxyConfig, c1.protocol = "trojan" → c2.protocol = "trojan" →
      c1.password = c2.password → c1.server = c2.server → c1.port = c2.port →
      c1.network = c2.network → c1.path = c2.path → c1.sni = c2.sni →
      getConfigKey c1 = getConfigKey c2) ∧
    (deduplicate ["vless://uuid@host:443?type=ws&security=tls&path=/x#name1",
        "vless://uuid@host:443?type=ws&security=tls&path=/x#name2"]).map
      (fun c => c.name) = ["name1"] := by
  refine ⟨?_, ?_, ?_, ?_, by rfl⟩
  · intro c1 c2 hp1 hp2 h1 h2 h3 h4 h5 h6 h7
    simp [getConfigKey, hp1, hp2, h1, h2, h3, h4, h5, h6, h7]
  · intro c1 c2 hp1 hp2 h1 h2 h3 h4 h5 h6
    simp [getConfigKey, hp1, hp2, h1, h2, h3, h4, h5, h6]
  · intro c1 c2 hp1 hp2 h1 h2 h3
    simp [getConfigKey, hp1, hp2, h1, h2, h3]
  · intro c1 c2 hp1 hp2 h1 h2 h3 h4 h5 h6
    simp [getConfigKey, hp1, hp2, h1, h2, h3, h4, h5, h6]

/-- C4, witness: concrete same-key pairs for each protocol, differing only
in display name, raw descriptor and non-key fields, obtained by applying
`config_key_canonical`. -/
theorem config_key_canonical_witness :
    getConfigKey { protocol := "vless", name := "a", server := "h", port := 1, raw_config := "r1", uuid := some "u", network := some "tcp", security := some "none", path := some "", host := some "", sni := some "x", flow := some "f" } =
      getConfigKey { protocol := "vless", name := "b", server := "h", port := 1, raw_config := "r2", uuid := some "u", network := some "tcp", security := some "none", path := some "", host := some "", sni := some "y" } ∧
    getConfigKey { protocol := "vmess", name := "a", server := "h", port := 2, raw_config := "r1", uuid := some "u", network := some "ws", path := some "/p", host := some "hh", security := some "tls" } =
      getConfigKey { protocol := "vmess", name := "b", server := "h", port := 2, raw_config := "r2", uuid := some "u", network := some "ws", path := some "/p", host := some "hh", security := some "none" } ∧
    getConfigKey { protocol := "ss", name := "a", server := "h", port := 3, raw_config := "r1", method := some "aes-256-gcm", password := some "p1" } =
      getConfigKey { protocol := "ss", name := "b", server := "h", port := 3, raw_config := "r2", method := some "aes-256-gcm", password := some "p2" } ∧
    getConfigKey { protocol := "trojan", name := "a", server := "h", port := 4, raw_config := "r1", password := some "w", network := some "tcp", path := some "", sni := some "s", host := some "h1" } =
      getConfigKey { protocol := "trojan", name := "b", server := "h", port := 4, raw_config := "r2", password := some "w", network := some "tcp", path := some "", sni := some "s", host := some "h2" } :=
  ⟨config_key_canonical.1 _ _ rfl rfl rfl rfl rfl rfl rfl rfl rfl,
   config_key_canonical.2.1 _ _ rfl rfl rfl rfl rfl rfl rfl rfl,
   config_key_canonical.2.2.1 _ _ rfl rfl rfl rfl rfl,
   config_key_canonical.2.2.2.1 _ _ rfl rfl rfl rfl rfl rfl rfl rfl⟩

/-- Membership in the collected phase-2 results comes from a completed
validation that succeeded with strictly positive latency. -/
theorem collectWorking_mem {completed : List (ProxyConfig × Bool × Int)}
    {p : ProxyConfig × Int} (hp : p ∈ collectWorking completed) :
    0 < p.2 ∧ (p.1, true, p.2) ∈ completed := by
  induction completed with
  | nil => simp [collectWorking] at hp
  | cons e rest ih =>
    obtain ⟨c, s, l⟩ := e
    simp only [collectWorking] at hp
    split at hp
    · rename_i hc
      rcases List.mem_cons.mp hp with rfl | hmem
      · exact ⟨hc.2, by simp [hc.1]⟩
      · have h := ih hmem
        exact ⟨h.1, List.mem_cons_of_mem _ h.2⟩
    · have h := ih hp
      exact ⟨h.1, List.mem_cons_of_mem _ h.2⟩

/-- C5: whatever order the phase-2 workers complete in, every pair in the
final list comes from a validation that succeeded with strictly positive
latency, and the final list handed to the reporter is sorted ascending by
latency. -/
theorem final_results_spec (completed : List (ProxyConfig × Bool × Int)) :
    (∀ p ∈ sortWorking (collectWorking completed),
        0 < p.2 ∧ (p.1, true, p.2) ∈ completed) ∧
    (sortWorking (collectWorking completed)).Sorted latLe := by
  constructor
  · intro p hp
    exact collectWorking_mem ((List.mem_insertionSort latLe).mp hp)
  · exact List.sorted_insertionSort latLe _

/-- C5, witness: a three-outcome completion list in a scrambled order; the
surviving low-latency pair satisfies the retention property and the final
list is sorted. -/
theorem final_results_spec_witness :
    (0 < (2 : Int) ∧ (probeCfg "c", true, (2 : Int)) ∈
        [(probeCfg "a", true, (5 : Int)), (probeCfg "b", false, 3), (probeCfg "c", true, 2)]) ∧
    (sortWorking (collectWorking
        [(probeCfg "a", true, (5 : Int)), (probeCfg "b", false, 3),
          (probeCfg "c", true, 2)])).Sorted latLe :=
  ⟨(final_results_spec
      [(probeCfg "a", true, 5), (probeCfg "b", false, 3), (probeCfg "c", true, 2)]).1
      (probeCfg "c", 2) (by decide),
   (final_results_spec
      [(probeCfg "a", true, 5), (probeCfg "b", false, 3), (probeCfg "c", true, 2)]).2⟩

/-- C6, counterexample: when no candidates are fetched or parsed, `run`
returns early without calling `save_results`, so the empty report is not
written in that early-end case. -/
theorem run_report_counterexample :
    (runBot [] id (fun _ => false) id (fun _ => (false, -1))).exit = .noConfigs ∧
    (runBot [] id (fun _ => false) id (fun _ => (false, -1))).reportWritten = false :=
  ⟨rfl, rfl⟩

/-- C6, amended: the run ends early exactly when no candidates were
fetched/parsed or when no candidate survived the TCP precheck; in the
no-survivor case the (empty) report is still written before the run ends,
but in the no-candidates case the run ends without writing the report. -/
theorem run_early_exit (rawLines : List String)
    (tcpOrder : List ProxyConfig → List ProxyConfig) (tcpOk : ProxyConfig → Bool)
    (xrayOrder : List ProxyConfig → List ProxyConfig) (xrayRes : ProxyConfig → Bool × Int)
    (hperm : ∀ l, List.Perm (tcpOrder l) l) :
    ((runBot rawLines tcpOrder tcpOk xrayOrder xrayRes).exit = .noConfigs ↔
      deduplicate rawLines = []) ∧
    ((runBot rawLines tcpOrder tcpOk xrayOrder xrayRes).exit = .noTcpSurvivors ↔
      deduplicate rawLines ≠ [] ∧ ∀ c ∈ deduplicate rawLines, tcpOk c = false) ∧
    ((runBot rawLines tcpOrder tcpOk xrayOrder xrayRes).reportWritten = false ↔
      deduplicate rawLines = []) := by
  have hfilter : ((tcpOrder (deduplicate rawLines)).filter tcpOk = []) ↔
      (∀ c ∈ deduplicate rawLines, tcpOk c = false) := by
    rw [List.filter_eq_nil_iff]
    constructor
    · intro h c hc
      have := h c ((hperm (deduplicate rawLines)).mem_iff.mpr hc)
      simpa using this
    · intro h c hc
      have := h c ((hperm (deduplicate rawLines)).mem_iff.mp hc)
      simp [this]
  by_cases h1 : deduplicate rawLines = []
  · simp [runBot, h1]
  · by_cases h2 : (tcpOrder (deduplicate rawLines)).filter tcpOk = []
    · simp only [runBot, if_neg h1, if_pos h2]
      refine ⟨by simp [h1], ?_, by simp [h1]⟩
      constructor
      · intro _
        exact ⟨h1, hfilter.mp h2⟩
      · intro _
        trivial
    · simp only [runBot, if_neg h1, if_neg h2]
      refine ⟨by simp [h1], ?_, by simp [h1]⟩
      constructor
      · intro h; exact absurd h (by simp)
      · rintro ⟨-, hall⟩
        exact absurd (hfilter.mpr hall) h2

/-- C6, witness: a run over one parsable line where every candidate fails
the TCP precheck ends with the no-survivor exit and the report written. -/
theorem run_early_exit_witness :
    ((runBot ["ss://YWVzLTI1Ni1nY206cGFzcw==@host:8388#s1"] id (fun _ => false) id
        (fun _ => (false, -1))).exit = .noConfigs ↔
      deduplicate ["ss://YWVzLTI1Ni1nY206cGFzcw==@host:8388#s1"] = []) ∧
    ((runBot ["ss://YWVzLTI1Ni1nY206cGFzcw==@host:8388#s1"] id (fun _ => false) id
        (fun _ => (false, -1))).exit = .noTcpSurvivors ↔
      deduplicate ["ss://YWVzLTI1Ni1nY206cGFzcw==@host:8388#s1"] ≠ [] ∧
        ∀ c ∈ deduplicate ["ss://YWVzLTI1Ni1nY206cGFzcw==@host:8388#s1"],
          (fun _ => false) c = false) ∧
    ((runBot ["ss://YWVzLTI1Ni1nY206cGFzcw==@host:8388#s1"] id (fun _ => false) id
        (fun _ => (false, -1))).reportWritten = false ↔
      deduplicate ["ss://YWVzLTI1Ni1nY206cGFzcw==@host:8388#s1"] = []) :=
  run_early_exit ["ss://YWVzLTI1Ni1nY206cGFzcw==@host:8388#s1"] id (fun _ => false) id
    (fun _ => (false, -1)) (fun l => List.Perm.refl l)

/-- C7, counterexample: for a Trojan candidate whose TCP connect, TLS
handshake and cipher check all succeed, a failing probe send makes the
probe return a failure verdict (the send sits inside the `except` that
returns `SSL error`), while the same candidate passes when the send
succeeds — so Trojan probe-send errors are not ignored. -/
theorem probe_send_counterexample :
    (test_config_tcp trojanProbe
        { dnsOk := true, connect := .ok, tlsHandshakeOk := true, cipherOk := true,
          sendOk := false }).success = false ∧
    (test_config_tcp trojanProbe
        { dnsOk := true, connect := .ok, tlsHandshakeOk := true, cipherOk := true,
          sendOk := true }).success = true :=
  ⟨rfl, rfl⟩

/-- C7, amended: for a TLS-requiring candidate whose TCP connect and TLS
handshake (and cipher check) succeed, the probe passes regardless of
probe-send errors for every protocol except Trojan — the VLESS probe send
is guarded by its own `except: pass` — while for Trojan the verdict is a
pass exactly when the probe send does not raise. -/
theorem probe_send_amended (proxy : ProxyConfig) (env : ProbeEnv)
    (hdns : env.dnsOk = true) (hconn : env.connect = .ok)
    (hhs : env.tlsHandshakeOk = true) (hciph : env.cipherOk = true)
    (htls : probeWantsTLS proxy = true) :
    (proxy.protocol ≠ "trojan" → (test_config_tcp proxy env).success = true) ∧
    (proxy.protocol = "trojan" →
      ((test_config_tcp proxy env).success = true ↔ env.sendOk = true)) := by
  constructor
  · intro hne
    simp [test_config_tcp, hdns, hconn, htls, hhs, hciph, hne]
  · intro heq
    cases hs : env.sendOk <;>
      simp [test_config_tcp, hdns, hconn, htls, hhs, hciph, heq, hs]

/-- C7, witness: a VLESS candidate with TLS, successful handshake and
cipher check, and a failing probe send still passes the probe. -/
theorem probe_send_amended_witness :
    (test_config_tcp vlessProbe
        { dnsOk := true, connect := .ok, tlsHandshakeOk := true, cipherOk := true,
          sendOk := false }).success = true :=
  (probe_send_amended vlessProbe
      { dnsOk := true, connect := .ok, tlsHandshakeOk := true, cipherOk := true,
        sendOk := false } rfl rfl rfl rfl rfl).1 (by decide)

/-- C8, counterexample: on the TCP-connect-timeout exit path the probe
returns with the socket it opened still unclosed. -/
theorem socket_close_counterexample :
    test_config_tcp trojanProbe
        { dnsOk := true, connect := .timeout, tlsHandshakeOk := true, cipherOk := true,
          sendOk := true } =
      { success := false, reason := .tcpTimeout, socketOpened := true,
        socketClosed := false } :=
  rfl

/-- C8, amended: on every exit path of the probe except a TCP connect
failure (timeout or refusal), every socket the probe opened is closed
before it returns; on the two TCP-connect-failure exits the opened socket
is left unclosed. -/
theorem socket_close_amended (proxy : ProxyConfig) (env : ProbeEnv) :
    ((test_config_tcp proxy env).reason ≠ .tcpTimeout ∧
      (test_config_tcp proxy env).reason ≠ .tcpFailed →
      (test_config_tcp proxy env).socketClosed = true) ∧
    ((test_config_tcp proxy env).reason = .tcpTimeout ∨
      (test_config_tcp proxy env).reason = .tcpFailed →
      (test_config_tcp proxy env).socketOpened = true ∧
      (test_config_tcp proxy env).socketClosed = false) := by
  unfold test_config_tcp
  repeat' split
  all_goals simp

/-- C8, witness: for a concrete TLS candidate, a fully successful probe
closes its socket, and a timed-out connect leaves it open. -/
theorem socket_close_amended_witness :
    (test_config_tcp trojanProbe
        { dnsOk := true, connect := .ok, tlsHandshakeOk := true, cipherOk := true,
          sendOk := true }).socketClosed = true ∧
    (test_config_tcp trojanProbe
        { dnsOk := true, connect := .timeout, tlsHandshakeOk := true, cipherOk := true,
          sendOk := true }).socketOpened = true ∧
    (test_config_tcp trojanProbe
        { dnsOk := true, connect := .timeout, tlsHandshakeOk := true, cipherOk := true,
          sendOk := true }).socketClosed = false :=
  ⟨(socket_close_amended trojanProbe
      { dnsOk := true, connect := .ok, tlsHandshakeOk := true, cipherOk := true,
        sendOk := true }).1 ⟨by decide, by decide⟩,
   ((socket_close_amended trojanProbe
      { dnsOk := true, connect := .timeout, tlsHandshakeOk := true, cipherOk := true,
        sendOk := true }).2 (Or.inl rfl)).1,
   ((socket_close_amended trojanProbe
      { dnsOk := true, connect := .timeout, tlsHandshakeOk := true, cipherOk := true,
        sendOk := true }).2 (Or.inl rfl)).2⟩

/-- A list starts with a pattern exactly when it is the pattern followed by
some tail. -/
theorem listStartsWith_eq_append {l p : List Char} :
    listStartsWith l p = true ↔ ∃ t, l = p ++ t := by
  induction p generalizing l with
  | nil => simp [listStartsWith]
  | cons a p ih =>
    cases l with
    | nil => simp [listStartsWith]
    | cons c cs =>
      simp only [listStartsWith, Bool.and_eq_true, decide_eq_true_eq, ih,
        List.cons_append, List.cons.injEq]
      constructor
      · rintro ⟨rfl, t, rfl⟩
        exact ⟨t, rfl, rfl⟩
      · rintro ⟨t, rfl, rfl⟩
        exact ⟨rfl, t, rfl⟩

/-- C2: `parse_config_line` is total at its boundary: it always yields a
candidate or the null result (exceptions are modelled away by `Option`);
blank lines, unrecognized schemes, VMess lines whose base64/UTF-8/JSON
decoding fails, VLESS lines whose URI parse raises, and VLESS lines with a
missing host all yield the null result. -/
theorem parse_total_boundary :
    (∀ line : String, parse_config_line line = none ∨
      ∃ c, parse_config_line line = some c) ∧
    (∀ line : String, pyStripList line.data = [] → parse_config_line line = none) ∧
    (∀ line : String,
      listStartsWith (pyStripList line.data) "vless://".data = false →
      listStartsWith (pyStripList line.data) "vmess://".data = false →
      listStartsWith (pyStripList line.data) "ss://".data = false →
      listStartsWith (pyStripList line.data) "trojan://".data = false →
      parse_config_line line = none) ∧
    (∀ line : String,
      listStartsWith (pyStripList line.data) "vmess://".data = true →
      vmessDecode ⟨pyStripList line.data⟩ = none →
      parse_config_line line = none) ∧
    (∀ url : String, pyUrlsplit url.data = .error () → parseVless url = none) ∧
    (∀ (url : String) (parsed : UrlParts), pyUrlsplit url.data = .ok parsed →
      urlHostname parsed.netloc = none → parseVless url = none) := by
  refine ⟨?_, ?_, ?_, ?_, ?_, ?_⟩
  · intro line
    cases h : parse_config_line line with
    | none => exact Or.inl rfl
    | some c => exact Or.inr ⟨c, rfl⟩
  · intro line h
    simp [parse_config_line, h]
  · intro line h1 h2 h3 h4
    by_cases h0 : pyStripList line.data = []
    · simp [parse_config_line, h0]
    · simp [parse_config_line, h0, h1, h2, h3, h4]
  · intro line hvm hdec
    obtain ⟨t, ht⟩ := listStartsWith_eq_append.mp hvm
    have h0 : ¬("vmess://".data ++ t = []) := fun hc =>
      List.cons_ne_nil 'v' ("mess://".data ++ t)
        ((show ("vmess://".data ++ t) = 'v' :: ("mess://".data ++ t) from rfl) ▸ hc)
    have h1 : ¬(listStartsWith ("vmess://".data ++ t) "vless://".data = true) := by
      rw [show listStartsWith ("vmess://".data ++ t) "vless://".data = false from rfl]
      simp
    have h2 : listStartsWith ("vmess://".data ++ t) "vmess://".data = true :=
      listStartsWith_eq_append.mpr ⟨t, rfl⟩
    rw [ht] at hdec
    simp only [parse_config_line, ht, if_neg h0, if_neg h1, if_pos h2]
    unfold parseVmess
    rw [hdec]
  · intro url herr
    simp [parseVless, herr]
  · intro url parsed hok hhost
    simp only [parseVless, hok]
    split
    · rfl
    · split
      · rfl
      · rw [hhost]

/-- C2, witness: concrete rejections — a blank line, an unrecognized
scheme, a VMess line with undecodable payload, a VLESS line whose URI
parse raises, a VLESS line with an empty host — plus totality at an
arbitrary concrete line. -/
theorem parse_total_boundary_witness :
    parse_config_line "  " = none ∧
    parse_config_line "http://a" = none ∧
    parse_config_line "vmess://not-base64!!" = none ∧
    parseVless "vless://[a" = none ∧
    parseVless "vless://u@:443" = none ∧
    (parse_config_line "x" = none ∨ ∃ c, parse_config_line "x" = some c) :=
  ⟨parse_total_boundary.2.1 "  " rfl,
   parse_total_boundary.2.2.1 "http://a" rfl rfl rfl rfl,
   parse_total_boundary.2.2.2.1 "vmess://not-base64!!" rfl rfl,
   parse_total_boundary.2.2.2.2.1 "vless://[a" rfl,
   parse_total_boundary.2.2.2.2.2 "vless://u@:443"
     { scheme := "vless".data, netloc := "u@:443".data, query := [], fragment := [] } rfl rfl,
   parse_total_boundary.1 "x"⟩

/-- C10: for every VLESS or Trojan descriptor, the candidate's SNI is the
value of the `sni` query parameter when that is non-empty, else the value
of the `peer` parameter (Python's `or`); since `parse_qs` drops
empty-valued pairs, an empty-valued `sni` behaves as absent, as the two
concrete descriptors show. -/
theorem sni_peer_fallback :
    (∀ (url : String) (parsed : UrlParts) (c : ProxyConfig),
        pyUrlsplit url.data = .ok parsed → parseVless url = some c →
        c.sni = some ⟨pyOr (qsGet (parseQsl parsed.query) "sni".data [])
          (qsGet (parseQsl parsed.query) "peer".data [])⟩) ∧
    (∀ (url : String) (parsed : UrlParts) (c : ProxyConfig),
        pyUrlsplit url.data = .ok parsed → parseTrojan url = some c →
        c.sni = some ⟨pyOr (qsGet (parseQsl parsed.query) "sni".data [])
          (qsGet (parseQsl parsed.query) "peer".data [])⟩) ∧
    ((parse_config_line "vless://u@h:1?sni=&peer=p.example").map (fun c => c.sni) =
      some (some "p.example")) ∧
    ((parse_config_line "trojan://w@h:1?sni=s.example&peer=p.example").map (fun c => c.sni) =
      some (some "s.example")) := by
  refine ⟨?_, ?_, by rfl, by rfl⟩
  · intro url parsed c hok h
    unfold parseVless at h
    split at h
    · exact absurd h (by simp)
    rename_i parsed' hparsed'
    have hpe : parsed' = parsed := Except.ok.inj (hparsed'.symm.trans hok)
    subst hpe
    split at h
    · exact absurd h (by simp)
    rename_i port? hport
    split at h
    · exact absurd h (by simp)
    rename_i uuid huuid
    split at h
    · exact absurd h (by simp)
    rename_i server hserver
    split at h
    · exact absurd h (by simp)
    rename_i port
    split at h
    · exact absurd h (by simp)
    cases h
    rfl
  · intro url parsed c hok h
    unfold parseTrojan at h
    split at h
    · exact absurd h (by simp)
    rename_i parsed' hparsed'
    have hpe : parsed' = parsed := Except.ok.inj (hparsed'.symm.trans hok)
    subst hpe
    split at h
    · exact absurd h (by simp)
    rename_i port? hport
    split at h
    · exact absurd h (by simp)
    rename_i password hpw
    split at h
    · exact absurd h (by simp)
    rename_i server hserver
    split at h
    · exact absurd h (by simp)
    rename_i port
    split at h
    · exact absurd h (by simp)
    cases h
    rfl

/-- C10, witness: for `vless://u@h:1?peer=p.example` (no `sni` parameter)
the candidate's SNI is the `peer` value, by `sni_peer_fallback`. -/
theorem sni_peer_fallback_witness :
    vlessPeerExample.sni = some ⟨pyOr (qsGet (parseQsl peerParsed.query) "sni".data [])
      (qsGet (parseQsl peerParsed.query) "peer".data [])⟩ :=
  sni_peer_fallback.1 "vless://u@h:1?peer=p.example" peerParsed vlessPeerExample rfl rfl

end V2ray
